import Mathlib

/-!
Shallow embedding of the SpotLiquidityBot market-making agent (src/main.py)
over exact rationals, together with theorems checking the specification's
claims about quoting, reconciliation, inventory and crash safety.

Python floats are modelled as rationals with every rounding step explicit;
Python truthiness on optional numbers (None and 0.0 are falsy) is modelled
by the helpers below.  Gateway interaction is modelled by emitted command
lists plus an environment stream of place outcomes (some oid = the venue
acknowledged a resting order, none = any other outcome).
-/

namespace HLBot

/-- Order side, from the "buy"/"sell" strings used in main.py. -/
inductive Side where
  | buy
  | sell
deriving DecidableEq, Repr

/-- Opposite side, from new_side = "sell" if side == "buy" else "buy". -/
def Side.opp : Side → Side
  | .buy => .sell
  | .sell => .buy

/-- An entry of self.open_orders: the dict literal built at each place site,
with keys "side", "price", "size", "timestamp", "coin". -/
structure LocalOrder where
  side : Side
  price : ℚ
  size : ℚ
  timestamp : ℚ
  coin : String
deriving DecidableEq, Repr

/-- A request issued to the exchange object: order placement (side, price,
size, time-in-force, reduce-only flag), single cancel, or bulk cancel. -/
inductive Cmd where
  | place (side : Side) (px : ℚ) (sz : ℚ) (tif : String) (reduceOnly : Bool)
  | cancel (coin : String) (oid : Nat)
  | bulkCancel (items : List (String × Nat))
deriving DecidableEq, Repr

/-- The mutable attributes of SpotLiquidityBot that the embedded operations
read or write, plus the configuration fields they consult. -/
structure BotState where
  usd_order_size : ℚ
  spread : ℚ
  reprice_threshold : ℚ
  price_tick : ℚ
  max_order_age : ℚ
  price_expiry_threshold : ℚ
  max_btc_position : ℚ
  extra_sell_levels : ℤ
  crash_threshold : ℚ
  cooldown_after_crash : ℚ
  decimals : ℕ
  coin_code : String
  sell_ref_price : Option ℚ
  extra_sell_orders : List Nat
  base_sell_oid : Option Nat
  base_buy_oid : Option Nat
  price_history : List (ℚ × ℚ)
  last_crash_time : ℚ
  btc_balance : ℚ
  usdc_balance : ℚ
  best_bid : Option ℚ
  best_ask : Option ℚ
  open_orders : List (Nat × LocalOrder)
deriving DecidableEq, Repr

/-- Association-list lookup, modelling dict.get on self.open_orders (dict
keys are unique; the list mirrors dict insertion order). -/
def lookupA {α : Type} : List (Nat × α) → Nat → Option α
  | [], _ => none
  | p :: rest, k => if p.1 = k then some p.2 else lookupA rest k

/-- Key membership, modelling the "oid in dict" test. -/
def memKey {α : Type} (l : List (Nat × α)) (k : Nat) : Bool :=
  (l.map Prod.fst).contains k

/-- Dict assignment d[k] = v: update in place if the key exists, else append. -/
def insertA {α : Type} (l : List (Nat × α)) (k : Nat) (v : α) : List (Nat × α) :=
  if memKey l k then l.map (fun p => if p.1 = k then (k, v) else p) else l ++ [(k, v)]

/-- dict.pop(k, None): drop the entry with key k if present. -/
def eraseA {α : Type} : List (Nat × α) → Nat → List (Nat × α)
  | [], _ => []
  | p :: rest, k => if p.1 = k then rest else p :: eraseA rest k

/-- Python round() on a rational: nearest integer, ties to even. -/
def rndHalfEven (q : ℚ) : ℤ :=
  let f := Int.floor q
  let r := q - f
  if r < 1/2 then f
  else if 1/2 < r then f + 1
  else if f % 2 = 0 then f else f + 1

/-- Python round(x, n): nearest multiple of 10^(-n), ties to even. -/
def pyRound (x : ℚ) (n : ℕ) : ℚ :=
  (rndHalfEven (x * 10 ^ n) : ℚ) / 10 ^ n

/-- _round_price: round(raw_px / price_tick) * price_tick. -/
def roundPrice (st : BotState) (rawPx : ℚ) : ℚ :=
  (rndHalfEven (rawPx / st.price_tick) : ℚ) * st.price_tick

/-- Python truthiness filter on an optional float: None and 0.0 are falsy. -/
def truthyQ : Option ℚ → Option ℚ
  | some q => if q = 0 then none else some q
  | none => none

/-- Python truthiness filter on an optional order id: None and 0 are falsy. -/
def truthyOid : Option Nat → Option Nat
  | some k => if k = 0 then none else some k
  | none => none

/-- _mid_price: (best_bid + best_ask) / 2 when both are truthy, else None. -/
def midPrice (st : BotState) : Option ℚ :=
  match st.best_bid, st.best_ask with
  | some b, some a => if b ≠ 0 ∧ a ≠ 0 then some ((b + a) / 2) else none
  | _, _ => none

/-- _get_spreads: inventory-skewed per-side spreads. -/
def getSpreads (st : BotState) : ℚ × ℚ :=
  let skew : ℚ :=
    if 0 < st.max_btc_position then
      max (-1) (min 1 (st.btc_balance / st.max_btc_position))
    else 0
  (st.spread * (1 + skew), st.spread * (1 - skew))

/-- _update_inventory: adjust BTC/USDC balances after a fill. -/
def updateInventory (st : BotState) (side : Side) (filledAmt fillPrice : ℚ) : BotState :=
  match side with
  | .buy =>
      { st with btc_balance := st.btc_balance + filledAmt,
                usdc_balance := st.usdc_balance - filledAmt * fillPrice }
  | .sell =>
      { st with btc_balance := st.btc_balance - filledAmt,
                usdc_balance := st.usdc_balance + filledAmt * fillPrice }

/-- _place_order: guard px/size, then issue a GTC limit order.  The outcome
stream env supplies the venue response (some oid = resting).  Returns the
reported oid, the emitted commands, and the remaining stream. -/
def placeOrder (env : List (Option Nat)) (side : Side) (px sz : ℚ) :
    Option Nat × List Cmd × List (Option Nat) :=
  if px ≤ 0 ∨ sz ≤ 0 then (none, [], env)
  else
    match env with
    | [] => (none, [Cmd.place side px sz "Gtc" false], [])
    | r :: rest => (r, [Cmd.place side px sz "Gtc" false], rest)

/-- cancel_order: emit a cancel for a known oid; unknown oids are a no-op.
Local state is never modified here (callers pop separately). -/
def cancelOrder (st : BotState) (oid : Nat) : List Cmd :=
  match lookupA st.open_orders oid with
  | none => []
  | some o => [Cmd.cancel o.coin oid]

/-- The shared pop-and-clear block: open_orders.pop(oid, None), then clear
base_sell_oid/sell_ref_price, base_buy_oid and extra_sell_orders when they
referenced this oid (lines repeated in cancel_all/check_fills/reprice/expiry). -/
def popOrderClear (st : BotState) (oid : Nat) : BotState :=
  let st1 := { st with open_orders := eraseA st.open_orders oid }
  let st2 :=
    if st1.base_sell_oid = some oid then
      { st1 with base_sell_oid := none, sell_ref_price := none }
    else st1
  let st3 :=
    if st2.base_buy_oid = some oid then { st2 with base_buy_oid := none } else st2
  { st3 with extra_sell_orders := st3.extra_sell_orders.erase oid }

/-- cancel_all_open_orders: early-return on an empty book, otherwise attempt
one bulk cancel (its success or exception, gw, has no local effect) and
unconditionally pop every open oid with the clear block. -/
def cancelAllOpenOrders (st : BotState) (gw : Bool) : BotState × List Cmd :=
  if st.open_orders.isEmpty then (st, [])
  else
    let items := st.open_orders.map (fun p => (p.2.coin, p.1))
    let keys := st.open_orders.map Prod.fst
    (keys.foldl popOrderClear st, [Cmd.bulkCancel items])

/-- max(p for _, p in price_history): largest recorded mid. -/
def maxMid : List (ℚ × ℚ) → ℚ
  | [] => 0
  | p :: rest => rest.foldl (fun acc q => max acc q.2) p.2

/-- price_history[-1][1]: the latest recorded mid. -/
def latestMid (l : List (ℚ × ℚ)) : ℚ :=
  (l.getLast?.getD (0, 0)).2

/-- The crash-flatten limit price: self.best_bid or latest_price
(Python or, so a missing or zero bid falls back to the latest mid). -/
def flattenPx (st : BotState) (latest : ℚ) : ℚ :=
  match st.best_bid with
  | some b => if b = 0 then latest else b
  | none => latest

/-- check_crash: with at least two samples and a positive window maximum,
trip when (highest - latest) / highest reaches crash_threshold: cancel all
open orders, emit a reduce-only IOC sell of the whole BTC balance when it
is positive, clear the sample history and stamp last_crash_time. -/
def checkCrash (st : BotState) (now : ℚ) (gw : Bool) : BotState × List Cmd :=
  if st.price_history.length < 2 then (st, [])
  else
    let latest := latestMid st.price_history
    let highest := maxMid st.price_history
    if highest ≤ 0 then (st, [])
    else
      let dropPct := (highest - latest) / highest
      if st.crash_threshold ≤ dropPct then
        let r := cancelAllOpenOrders st gw
        let flat : List Cmd :=
          if 0 < r.1.btc_balance then
            [Cmd.place Side.sell (flattenPx r.1 latest) r.1.btc_balance "Ioc" true]
          else []
        ({ r.1 with price_history := [], last_crash_time := now }, r.2 ++ flat)
      else (st, [])

/-- The dict literal stored for a freshly placed order. -/
def mkOrder (side : Side) (px sz now : ℚ) (coin : String) : LocalOrder :=
  ⟨side, px, sz, now, coin⟩

/-- The body of the extra-sell while loop in _place_additional_sell_orders:
ld is the local levels_done counter, fuel = (extra_sell_levels - ld).toNat
so that fuel > 0 exactly when the while condition ld < extra_sell_levels
holds. -/
def extraLoop (mid ref : ℚ) (now : ℚ) :
    ℕ → BotState → List (Option Nat) → ℕ → BotState × List Cmd × List (Option Nat)
  | _, st, env, 0 => (st, [], env)
  | ld, st, env, fuel + 1 =>
    let diff := ref - mid
    let threshold := ((ld : ℚ) + 1) * 2 * st.spread * mid
    if threshold ≤ diff then
      let px := roundPrice st (ref + ((ld : ℚ) + 1) * 2 * st.spread * mid)
      let sz := pyRound (st.usd_order_size / px) st.decimals
      let pr := placeOrder env Side.sell px sz
      match truthyOid pr.1 with
      | some oid =>
          let st1 := { st with
            open_orders := insertA st.open_orders oid (mkOrder Side.sell px sz now st.coin_code),
            extra_sell_orders := st.extra_sell_orders ++ [oid] }
          let rest := extraLoop mid ref now (ld + 1) st1 pr.2.2 fuel
          (rest.1, pr.2.1 ++ rest.2.1, rest.2.2)
      | none => (st, pr.2.1, pr.2.2)
    else (st, [], env)

/-- _place_additional_sell_orders: guard the level count and the sell
reference price, then run the laddering loop. -/
def placeAdditionalSellOrders (st : BotState) (mid : ℚ) (now : ℚ)
    (env : List (Option Nat)) : BotState × List Cmd × List (Option Nat) :=
  if st.extra_sell_levels ≤ 0 then (st, [], env)
  else
    match st.sell_ref_price with
    | none => (st, [], env)
    | some ref =>
        let ld := st.extra_sell_orders.length
        extraLoop mid ref now ld st env (st.extra_sell_levels - (ld : ℤ)).toNat

/-- The buy half of ensure_orders: when no live base buy is tracked, place
a buy at mid·(1 − buy_spread), quantized, and record it on success. -/
def ensureBuyLeg (st : BotState) (mid now buySpread : ℚ)
    (env : List (Option Nat)) : BotState × List Cmd × List (Option Nat) :=
  let needBuy :=
    match st.base_buy_oid with
    | none => true
    | some k => ¬ memKey st.open_orders k
  if needBuy then
    let buyPx := roundPrice st (mid * (1 - buySpread))
    let buySz := pyRound (st.usd_order_size / buyPx) st.decimals
    let pr := placeOrder env Side.buy buyPx buySz
    match truthyOid pr.1 with
    | some oid =>
        ({ st with
            base_buy_oid := some oid
            open_orders := insertA st.open_orders oid
              (mkOrder Side.buy buyPx buySz now st.coin_code) }, pr.2.1, pr.2.2)
    | none => (st, pr.2.1, pr.2.2)
  else (st, [], env)

/-- The sell half of ensure_orders: when no live base sell is tracked,
place a sell at mid·(1 + sell_spread), quantized, and on success record it
together with the sell reference price, resetting the extra-sell list. -/
def ensureSellLeg (st : BotState) (mid now sellSpread : ℚ)
    (env : List (Option Nat)) : BotState × List Cmd × List (Option Nat) :=
  let needSell :=
    match st.base_sell_oid with
    | none => true
    | some k => ¬ memKey st.open_orders k
  if needSell then
    let sellPx := roundPrice st (mid * (1 + sellSpread))
    let sellSz := pyRound (st.usd_order_size / sellPx) st.decimals
    let pr := placeOrder env Side.sell sellPx sellSz
    match truthyOid pr.1 with
    | some oid =>
        ({ st with
            base_sell_oid := some oid
            sell_ref_price := some sellPx
            extra_sell_orders := []
            open_orders := insertA st.open_orders oid
              (mkOrder Side.sell sellPx sellSz now st.coin_code) }, pr.2.1, pr.2.2)
    | none => (st, pr.2.1, pr.2.2)
  else (st, [], env)

/-- ensure_orders: skip entirely during post-crash cooldown; otherwise with
a truthy mid place the missing base buy and base sell at the skewed spreads
(both computed from the entry inventory) and then attempt the extra sell
ladder. -/
def ensureOrders (st : BotState) (now : ℚ) (env : List (Option Nat)) :
    BotState × List Cmd × List (Option Nat) :=
  if now - st.last_crash_time < st.cooldown_after_crash then (st, [], env)
  else
    match truthyQ (midPrice st) with
    | none => (st, [], env)
    | some mid =>
      let sp := getSpreads st
      let r1 := ensureBuyLeg st mid now sp.1 env
      let r2 := ensureSellLeg r1.1 mid now sp.2 r1.2.2
      let r3 := placeAdditionalSellOrders r2.1 mid now r2.2.2
      (r3.1, r1.2.1 ++ r2.2.1 ++ r3.2.1, r3.2.2)

/-- The book/tracking update after the startup place: on a truthy oid the
new buy is recorded and becomes the base buy. -/
def startupRecord (st : BotState) (px sz now : ℚ) (r : Option Nat) : BotState :=
  match truthyOid r with
  | some oid =>
      { st with
          base_buy_oid := some oid
          open_orders := insertA st.open_orders oid
            (mkOrder Side.buy px sz now st.coin_code) }
  | none => st

/-- _place_startup_order: a single seed buy at mid * (1 - 0.0001). -/
def placeStartupOrder (st : BotState) (mid : Option ℚ) (now : ℚ)
    (env : List (Option Nat)) : BotState × List Cmd :=
  match mid with
  | none => (st, [])
  | some m =>
    let px := roundPrice st (m * (1 - 1/10000))
    let sz := pyRound (st.usd_order_size / px) st.decimals
    let pr := placeOrder env Side.buy px sz
    (startupRecord st px sz now pr.1, pr.2.1)

/-- The replacement-order block shared by both check_fills branches: with a
truthy mid, place an order on the opposite side at the (freshly skewed)
spread and record it; new_side = sell also resets the sell reference and
the extra-sell list. -/
def replaceOpposite (st : BotState) (side : Side) (now : ℚ)
    (env : List (Option Nat)) : BotState × List Cmd × List (Option Nat) :=
  match truthyQ (midPrice st) with
  | none => (st, [], env)
  | some mid =>
    let newSide := side.opp
    let sp := getSpreads st
    let chosen := if newSide = Side.sell then sp.2 else sp.1
    let px :=
      if newSide = Side.sell then roundPrice st (mid * (1 + chosen))
      else roundPrice st (mid * (1 - chosen))
    let newSz := pyRound (st.usd_order_size / px) st.decimals
    let pr := placeOrder env newSide px newSz
    match truthyOid pr.1 with
    | some newId =>
        let st1 := { st with
          open_orders := insertA st.open_orders newId (mkOrder newSide px newSz now st.coin_code) }
        let st2 :=
          if newSide = Side.sell then
            { st1 with
                base_sell_oid := some newId
                sell_ref_price := some px
                extra_sell_orders := [] }
          else { st1 with base_buy_oid := some newId }
        (st2, pr.2.1, pr.2.2)
    | none => (st, pr.2.1, pr.2.2)

/-- The per-order body of the check_fills loop, iterating over the entry
list snapshot taken at loop start.  A venue-reported remaining size below
the stored size is a partial fill (shrink, book inventory, replace
opposite); an absent oid is terminal (book inventory for the full stored
size, replace opposite, pop and clear). -/
def checkFillsLoop (snap : List (Nat × ℚ)) (now : ℚ) :
    List (Nat × LocalOrder) → BotState → List (Option Nat) →
    BotState × List Cmd × List (Option Nat)
  | [], st, env => (st, [], env)
  | (oid, o) :: rest, st, env =>
    match lookupA snap oid with
    | some remain =>
        if remain < o.size then
          let stA := { st with
            open_orders := st.open_orders.map
              (fun p => if p.1 = oid then (p.1, { p.2 with size := remain }) else p) }
          let stB := updateInventory stA o.side (o.size - remain) o.price
          let r := replaceOpposite stB o.side now env
          let tl := checkFillsLoop snap now rest r.1 r.2.2
          (tl.1, r.2.1 ++ tl.2.1, tl.2.2)
        else
          checkFillsLoop snap now rest st env
    | none =>
        let stB := updateInventory st o.side o.size o.price
        let r := replaceOpposite stB o.side now env
        let stC := popOrderClear r.1 oid
        let tl := checkFillsLoop snap now rest stC r.2.2
        (tl.1, r.2.1 ++ tl.2.1, tl.2.2)

/-- The "self.base_sell_oid and self.base_sell_oid not in self.open_orders"
test of check_fills (and its base_buy twin): a truthy tracked oid that is
absent from the freshly intersected book. -/
def oidDangling (t : Option Nat) (book : List (Nat × LocalOrder)) : Bool :=
  match truthyOid t with
  | some k => ¬ memKey book k
  | none => false

/-- The tail of check_fills: intersect the book with the snapshot keys,
then drop the dangling base_sell_oid/sell_ref_price, base_buy_oid and
extra_sell_orders references.  The three checks are independent in the
source (each reads the freshly assigned book and its own untouched oid
field), so they are taken in one update. -/
def dropDangling (st : BotState) (l : List (Nat × ℚ)) : BotState :=
  let book := st.open_orders.filter (fun p => memKey l p.1)
  { st with
      open_orders := book
      base_sell_oid := if oidDangling st.base_sell_oid book then none else st.base_sell_oid
      sell_ref_price := if oidDangling st.base_sell_oid book then none else st.sell_ref_price
      base_buy_oid := if oidDangling st.base_buy_oid book then none else st.base_buy_oid
      extra_sell_orders := st.extra_sell_orders.filter (fun k => memKey book k) }

/-- check_fills: skip reconciliation entirely when the fetched snapshot is
falsy (a transport error, modelled as none, or an empty order list);
otherwise run the per-order loop, then intersect the book with the
snapshot keys and drop dangling oid references. -/
def checkFills (st : BotState) (snap : Option (List (Nat × ℚ)))
    (env : List (Option Nat)) (now : ℚ) : BotState × List Cmd :=
  match snap with
  | none => (st, [])
  | some l =>
    if l.isEmpty then (st, [])
    else
      let r := checkFillsLoop l now st.open_orders st env
      (dropDangling r.1 l, r.2.1)

/-- A row of the venue open_orders payload as read by load_open_orders. -/
structure RawOrder where
  oid : Option Nat
  side : String
  limitPx : ℚ
  sz : ℚ
  coin : String
  timestamp : ℚ
deriving DecidableEq, Repr

/-- The LocalOrder built from one venue row: side "B" means buy, price and
size taken verbatim, the millisecond timestamp divided by 1000. -/
def rawToLocal (o : RawOrder) : LocalOrder :=
  ⟨(if o.side = "B" then Side.buy else Side.sell), o.limitPx, o.sz, o.timestamp / 1000, o.coin⟩

/-- The book rebuilt by load_open_orders from the venue rows: starting from
a cleared dict, insert every row that carries an oid. -/
def loadBook (l : List RawOrder) : List (Nat × LocalOrder) :=
  l.foldl
    (fun acc o =>
      match o.oid with
      | none => acc
      | some k => insertA acc k (rawToLocal o))
    []

/-- load_open_orders: on a transport error keep the local book; on success
clear it and re-insert every row that carries an oid. -/
def loadOpenOrders (st : BotState) (raw : Option (List RawOrder)) : BotState :=
  match raw with
  | none => st
  | some l => { st with open_orders := loadBook l }

/-- The loop of cancel_expired_orders over the entry snapshot: cancel and
pop every order that is both older than max_order_age and at least
price_expiry_threshold away from mid. -/
def ceLoop (now mid : ℚ) :
    List (Nat × LocalOrder) → BotState → BotState × List Cmd
  | [], st => (st, [])
  | (oid, o) :: rest, st =>
    if st.max_order_age < now - o.timestamp ∧ st.price_expiry_threshold ≤ |mid - o.price| then
      let c := cancelOrder st oid
      let st1 := popOrderClear st oid
      let r := ceLoop now mid rest st1
      (r.1, c ++ r.2)
    else ceLoop now mid rest st

/-- cancel_expired_orders: a no-op without a truthy mid; otherwise run the
age-and-deviation sweep. -/
def cancelExpiredOrders (st : BotState) (now : ℚ) : BotState × List Cmd :=
  match truthyQ (midPrice st) with
  | none => (st, [])
  | some mid => ceLoop now mid st.open_orders st

/-- The loop of reprice_orders: cancel and pop every order whose relative
drift from mid strictly exceeds reprice_threshold. -/
def rpLoop (mid : ℚ) :
    List (Nat × LocalOrder) → BotState → BotState × List Cmd
  | [], st => (st, [])
  | (oid, o) :: rest, st =>
    if st.reprice_threshold < |mid - o.price| / max o.price (1 / 1000000000) then
      let c := cancelOrder st oid
      let st1 := popOrderClear st oid
      let r := rpLoop mid rest st1
      (r.1, c ++ r.2)
    else rpLoop mid rest st

/-- reprice_orders: a no-op without a truthy mid; otherwise run the drift
sweep. -/
def repriceOrders (st : BotState) : BotState × List Cmd :=
  match truthyQ (midPrice st) with
  | none => (st, [])
  | some mid => rpLoop mid st.open_orders st

/-- The commands each phase of one locked control-loop pass emitted. -/
structure TickEffects where
  expired : List Cmd
  repriced : List Cmd
  ensured : List Cmd
  crash : List Cmd
deriving DecidableEq, Repr

/-- One pass of the run loop's locked region, in source order:
cancel_expired_orders, reprice_orders, ensure_orders, check_crash. -/
def tick (st : BotState) (now : ℚ) (env : List (Option Nat)) (gw : Bool) :
    BotState × TickEffects :=
  let r1 := cancelExpiredOrders st now
  let r2 := repriceOrders r1.1
  let r3 := ensureOrders r2.1 now env
  let r4 := checkCrash r3.1 now gw
  (r4.1, ⟨r1.2, r2.2, r3.2.1, r4.2⟩)

/-- A price lies on the venue grid: it is an integer multiple of the tick. -/
def tickMultiple (t px : ℚ) : Prop :=
  ∃ k : ℤ, px = (k : ℚ) * t

/-- A size has at most d fractional decimal digits. -/
def sizeQuantized (d : ℕ) (sz : ℚ) : Prop :=
  ∃ k : ℤ, sz = (k : ℚ) / 10 ^ d

/-- Every place command in the list carries a tick-multiple price and a
size with at most d fractional digits. -/
def quantCmds (t : ℚ) (d : ℕ) (cmds : List Cmd) : Prop :=
  ∀ c ∈ cmds, ∀ s px sz tf ro, c = Cmd.place s px sz tf ro →
    tickMultiple t px ∧ sizeQuantized d sz

/-- Integer truncation toward zero of a rational. -/
def intTrunc (q : ℚ) : ℤ :=
  if q < 0 then -Int.floor (-q) else Int.floor q

/-- Modelled from the spec: round_size(raw) as the specification words it,
"truncation to size_decimals" (the code instead uses Python round). -/
def specTruncSize (x : ℚ) (n : ℕ) : ℚ :=
  (intTrunc (x * 10 ^ n) : ℚ) / 10 ^ n

/-- A baseline concrete bot state matching the __main__ configuration of
main.py (spread 0.0004, tick 1, 100 USD orders, 5 size decimals, 1 percent
crash threshold, 180 s cooldown) with the BBO of spec scenario 1. -/
def defSt : BotState :=
  { usd_order_size := 100, spread := 4/10000, reprice_threshold := 5/1000,
    price_tick := 1, max_order_age := 60, price_expiry_threshold := 500,
    max_btc_position := 1/10, extra_sell_levels := 0, crash_threshold := 1/100,
    cooldown_after_crash := 180, decimals := 5, coin_code := "UBTC",
    sell_ref_price := none, extra_sell_orders := [], base_sell_oid := none,
    base_buy_oid := none, price_history := [], last_crash_time := 0,
    btc_balance := 0, usdc_balance := 0, best_bid := some 100000,
    best_ask := some 100002, open_orders := [] }

/-- A resting local buy at 99961 for 0.001, as in spec scenarios 1 and 2. -/
def ordA : LocalOrder :=
  ⟨Side.buy, 99961, 1/1000, 0, "UBTC"⟩

/-- defSt holding the single local buy ordA under oid 1. -/
def bookSt : BotState :=
  { defSt with open_orders := [(1, ordA)], base_buy_oid := some 1 }

/-- bookSt during a 2 percent drop (samples 100 then 98) while holding
0.001 BTC: the crash trip conditions of spec scenario 4 are met. -/
def crashSt : BotState :=
  { defSt with
      price_history := [(0, 100), (1, 98)]
      open_orders := [(1, ordA)]
      base_buy_oid := some 1
      btc_balance := 1/1000 }

/-- defSt holding one aged buy at 99501 whose absolute deviation from mid
100001 is exactly the 500 expiry threshold (a tie, not an excess). -/
def tieSt : BotState :=
  { defSt with
      open_orders := [(1, ⟨Side.buy, 99501, 1/1000, 0, "UBTC"⟩)]
      base_buy_oid := some 1 }

/-- defSt holding two aged orders: one far from mid (past the expiry
threshold) and one near it. -/
def expSt : BotState :=
  { defSt with
      open_orders := [(1, ⟨Side.buy, 90000, 1/1000, 0, "UBTC"⟩),
                      (2, ⟨Side.sell, 100040, 1/1000, 0, "UBTC"⟩)]
      base_buy_oid := some 1
      base_sell_oid := some 2
      sell_ref_price := some 100040 }

/-- defSt with both BBO sides at 6 and no base spread: the ensure step
quotes at price 6 with size round(100/6, 5), whose last digit rounds up —
distinguishing Python round from truncation. -/
def evenSt : BotState :=
  { defSt with best_bid := some 6, best_ask := some 6, spread := 0 }

/-- defSt in a 1.5 percent drop with no bid side and 0.001 BTC held: the
crash flatten is priced at the latest mid 99.5, which is no multiple of
the tick 1. -/
def flatSt : BotState :=
  { defSt with
      price_history := [(0, 101), (1, 199/2)]
      best_bid := none
      btc_balance := 1/1000 }

/-- defSt with one sample only and a zero crash threshold: the claimed
"non-empty history" trip condition holds but the code requires two. -/
def oneSampleSt : BotState :=
  { defSt with
      crash_threshold := 0
      price_history := [(0, 100)]
      open_orders := [(1, ordA)]
      base_buy_oid := some 1 }

/-! ### Helper lemmas about the embedded operations -/

theorem popOrderClear_eq (st : BotState) (oid : Nat) :
    popOrderClear st oid = { st with
      open_orders := eraseA st.open_orders oid
      base_sell_oid := if st.base_sell_oid = some oid then none else st.base_sell_oid
      sell_ref_price := if st.base_sell_oid = some oid then none else st.sell_ref_price
      base_buy_oid := if st.base_buy_oid = some oid then none else st.base_buy_oid
      extra_sell_orders := st.extra_sell_orders.erase oid } := by
  unfold popOrderClear
  by_cases hs : st.base_sell_oid = some oid <;>
    by_cases hb : st.base_buy_oid = some oid <;>
    simp [hs, hb]

theorem lookupA_append_right {α : Type} (l1 l2 : List (Nat × α)) (k : Nat)
    (h : k ∉ l1.map Prod.fst) :
    lookupA (l1 ++ l2) k = lookupA l2 k := by
  induction l1 with
  | nil => rfl
  | cons p rest ih =>
      simp only [List.map_cons, List.mem_cons] at h
      push_neg at h
      simp [lookupA, Ne.symm h.1, ih h.2]

theorem eraseA_append_right {α : Type} (l1 l2 : List (Nat × α)) (k : Nat)
    (h : k ∉ l1.map Prod.fst) :
    eraseA (l1 ++ l2) k = l1 ++ eraseA l2 k := by
  induction l1 with
  | nil => rfl
  | cons p rest ih =>
      simp only [List.map_cons, List.mem_cons] at h
      push_neg at h
      simp [eraseA, Ne.symm h.1, ih h.2]

theorem eraseA_cons_self {α : Type} (p : Nat × α) (rest : List (Nat × α)) :
    eraseA (p :: rest) p.1 = rest := by
  simp [eraseA]

/-! ### C7: inventory skew direction -/

/-- C7: with spread ≥ 0 and max_base_position > 0, the skewed spreads from
_get_spreads satisfy: positive base balance gives buy_spread ≥ spread ≥
sell_spread, negative gives buy_spread ≤ spread ≤ sell_spread, and zero
balance gives buy_spread = sell_spread = spread. -/
theorem getSpreads_skew_direction (st : BotState)
    (hs : 0 ≤ st.spread) (hm : 0 < st.max_btc_position) :
    (0 < st.btc_balance →
      (getSpreads st).2 ≤ st.spread ∧ st.spread ≤ (getSpreads st).1) ∧
    (st.btc_balance < 0 →
      (getSpreads st).1 ≤ st.spread ∧ st.spread ≤ (getSpreads st).2) ∧
    (st.btc_balance = 0 →
      (getSpreads st).1 = st.spread ∧ (getSpreads st).2 = st.spread) := by
  unfold getSpreads
  simp only [if_pos hm]
  refine ⟨fun hpos => ?_, fun hneg => ?_, fun hzero => ?_⟩
  · have hq : 0 < st.btc_balance / st.max_btc_position := div_pos hpos hm
    have h0 : 0 ≤ max (-1 : ℚ) (min 1 (st.btc_balance / st.max_btc_position)) := by
      have : (0 : ℚ) ≤ min 1 (st.btc_balance / st.max_btc_position) :=
        le_min (by norm_num) hq.le
      exact le_trans this (le_max_right _ _)
    constructor <;> nlinarith
  · have hq : st.btc_balance / st.max_btc_position < 0 := div_neg_of_neg_of_pos hneg hm
    have hmin : min (1 : ℚ) (st.btc_balance / st.max_btc_position) =
        st.btc_balance / st.max_btc_position :=
      min_eq_right (le_of_lt (lt_trans hq (by norm_num)))
    have h0 : max (-1 : ℚ) (min 1 (st.btc_balance / st.max_btc_position)) ≤ 0 := by
      rw [hmin]
      exact max_le (by norm_num) hq.le
    constructor <;> nlinarith
  · simp [hzero]

/-- Witness for C7 at a concretely long position. -/
theorem getSpreads_skew_direction_witness :
    (getSpreads { defSt with btc_balance := 1/20 }).2 ≤
        ({ defSt with btc_balance := 1/20 } : BotState).spread ∧
      ({ defSt with btc_balance := 1/20 } : BotState).spread ≤
        (getSpreads { defSt with btc_balance := 1/20 }).1 :=
  (getSpreads_skew_direction { defSt with btc_balance := 1/20 }
      (by norm_num [defSt]) (by norm_num [defSt])).1 (by norm_num [defSt])

theorem dropDangling_spec (st : BotState) (l : List (Nat × ℚ)) :
    (dropDangling st l).open_orders =
        st.open_orders.filter (fun p => memKey l p.1) ∧
    (dropDangling st l).btc_balance = st.btc_balance ∧
    (dropDangling st l).usdc_balance = st.usdc_balance := by
  unfold dropDangling
  simp

/-! ### C5: mid-price usability -/

/-- C5 (amended): the Quoter's usable mid is (best_bid + best_ask) / 2
whenever both sides are present and nonzero — no best_bid ≤ best_ask
consistency check is applied — and when the mid is falsy (a side missing
or zero) the ensure, expiry and reprice steps all skip the tick without
touching state or placing orders. -/
theorem mid_usability (st : BotState) (now : ℚ) (env : List (Option Nat)) :
    (∀ b a, st.best_bid = some b → st.best_ask = some a → b ≠ 0 → a ≠ 0 →
      midPrice st = some ((b + a) / 2)) ∧
    (truthyQ (midPrice st) = none →
      ensureOrders st now env = (st, [], env) ∧
      cancelExpiredOrders st now = (st, []) ∧
      repriceOrders st = (st, [])) := by
  constructor
  · intro b a hb ha hb0 ha0
    simp [midPrice, hb, ha, hb0, ha0]
  · intro h
    refine ⟨?_, ?_, ?_⟩
    · unfold ensureOrders
      by_cases hc : now - st.last_crash_time < st.cooldown_after_crash
      · simp [hc]
      · simp [hc, h]
    · unfold cancelExpiredOrders
      rw [h]
    · unfold repriceOrders
      rw [h]

/-- C5 counterexample: with best_bid = 101 strictly above best_ask = 99
the tick is not skipped — ensure still quotes from mid 100, refuting the
claimed bid ≤ ask consistency gate. -/
theorem crossed_book_still_quotes :
    ({ defSt with best_bid := some 101, best_ask := some 99 } : BotState).best_bid
        = some 101 ∧
    ({ defSt with best_bid := some 101, best_ask := some 99 } : BotState).best_ask
        = some 99 ∧
    (99 : ℚ) < 101 ∧
    (ensureOrders { defSt with best_bid := some 101, best_ask := some 99 } 1000
        [some 7, some 8]).2.1 =
      [Cmd.place Side.buy 100 1 "Gtc" false, Cmd.place Side.sell 100 1 "Gtc" false] := by
  refine ⟨rfl, rfl, by norm_num, ?_⟩
  norm_num [ensureOrders, ensureBuyLeg, ensureSellLeg, midPrice, truthyQ,
    getSpreads, roundPrice, pyRound, rndHalfEven, placeOrder, truthyOid,
    memKey, insertA, mkOrder, placeAdditionalSellOrders, defSt]

/-- Witness for C5 at the scenario-1 BBO and at a one-sided book. -/
theorem mid_usability_witness :
    midPrice defSt = some ((100000 + 100002) / 2) ∧
    (ensureOrders { defSt with best_ask := none } 7 [] =
        ({ defSt with best_ask := none }, [], []) ∧
      cancelExpiredOrders { defSt with best_ask := none } 7 =
        ({ defSt with best_ask := none }, []) ∧
      repriceOrders { defSt with best_ask := none } =
        ({ defSt with best_ask := none }, [])) :=
  ⟨(mid_usability defSt 7 []).1 100000 100002 rfl rfl (by norm_num) (by norm_num),
    (mid_usability { defSt with best_ask := none } 7 []).2 rfl⟩

/-! ### C1: no ghost orders after reconciliation -/

/-- C1 (amended): after a reconcile cycle on a non-empty venue snapshot,
every oid remaining in the Local Order Book appears in that snapshot; but
reconciliation is skipped both on a Transport error and on a successful
snapshot with zero open orders (the falsy-dict test), so an empty result
does not empty the book. -/
theorem checkFills_no_ghost_orders (st : BotState) (l : List (Nat × ℚ))
    (env : List (Option Nat)) (now : ℚ) (hne : l ≠ []) :
    (∀ p ∈ (checkFills st (some l) env now).1.open_orders,
        p.1 ∈ l.map Prod.fst) ∧
    checkFills st none env now = (st, []) ∧
    checkFills st (some []) env now = (st, []) := by
  refine ⟨?_, rfl, rfl⟩
  intro p hp
  simp only [checkFills] at hp
  rw [if_neg (by simpa using hne)] at hp
  rw [show ((dropDangling (checkFillsLoop l now st.open_orders st env).1 l,
        (checkFillsLoop l now st.open_orders st env).2.1) : BotState × List Cmd).1
      = dropDangling (checkFillsLoop l now st.open_orders st env).1 l from rfl,
    (dropDangling_spec _ _).1] at hp
  rw [List.mem_filter] at hp
  simpa [memKey] using hp.2

/-- C1 counterexample: a successful snapshot reporting zero open orders
leaves the non-empty Local Order Book untouched (the code's falsy test
skips reconciliation on an empty dict, not only on Transport errors). -/
theorem empty_snapshot_skips_reconcile :
    checkFills bookSt (some []) [] 0 = (bookSt, []) ∧
    (checkFills bookSt (some []) [] 0).1.open_orders ≠ [] := by
  refine ⟨rfl, ?_⟩
  show bookSt.open_orders ≠ []
  simp [bookSt]

/-- Witness for C1: the surviving oid 1 of a reconcile over the singleton
snapshot indeed appears among the snapshot keys. -/
theorem checkFills_no_ghost_orders_witness :
    (1 : Nat) ∈ ([(1, (1 : ℚ)/1000)] : List (Nat × ℚ)).map Prod.fst :=
  (checkFills_no_ghost_orders bookSt [(1, 1/1000)] [] 0 (by simp)).1
    (1, ordA)
    (by norm_num [checkFills, checkFillsLoop, lookupA, memKey,
      dropDangling, oidDangling, truthyOid, bookSt, defSt, ordA])

theorem memKey_iff {α : Type} (l : List (Nat × α)) (k : Nat) :
    memKey l k = true ↔ k ∈ l.map Prod.fst := by
  simp [memKey, List.elem_iff]

theorem memKey_eq_false {α : Type} (l : List (Nat × α)) (k : Nat) :
    memKey l k = false ↔ k ∉ l.map Prod.fst := by
  rw [← memKey_iff]
  cases memKey l k <;> simp

theorem insertA_fresh {α : Type} (l : List (Nat × α)) (k : Nat) (v : α)
    (h : k ∉ l.map Prod.fst) :
    insertA l k v = l ++ [(k, v)] := by
  unfold insertA
  rw [if_neg]
  simp [memKey_iff, h]

/-! ### C2: restart recovery -/

theorem loadBook_fold (l : List RawOrder) (acc : List (Nat × LocalOrder))
    (hoid : ∀ o ∈ l, o.oid ≠ none)
    (hnd : (l.map (fun o => o.oid.getD 0)).Nodup)
    (hdisj : ∀ o ∈ l, o.oid.getD 0 ∉ acc.map Prod.fst) :
    l.foldl
        (fun acc2 o =>
          match o.oid with
          | none => acc2
          | some k => insertA acc2 k (rawToLocal o))
        acc
      = acc ++ l.map (fun o => (o.oid.getD 0, rawToLocal o)) := by
  induction l generalizing acc with
  | nil => simp
  | cons o rest ih =>
      obtain ⟨k, hk⟩ : ∃ k, o.oid = some k := by
        cases h : o.oid with
        | none => exact absurd h (hoid o (by simp))
        | some k => exact ⟨k, rfl⟩
      have hfresh : k ∉ acc.map Prod.fst := by
        have := hdisj o (by simp)
        simpa [hk] using this
      have hknotrest : ∀ o2 ∈ rest, o2.oid.getD 0 ≠ k := by
        intro o2 h2
        have : o.oid.getD 0 ∉ rest.map (fun o3 => o3.oid.getD 0) := by
          simpa using (List.nodup_cons.mp hnd).1
        intro hEq
        exact this (by simpa [hk, ← hEq] using List.mem_map_of_mem _ h2)
      rw [List.foldl_cons, hk]
      show rest.foldl _ (insertA acc k (rawToLocal o)) = _
      rw [insertA_fresh acc k _ hfresh]
      rw [ih (acc ++ [(k, rawToLocal o)])
          (fun o2 h2 => hoid o2 (by simp [h2]))
          (List.nodup_cons.mp hnd).2
          (by
            intro o2 h2
            have h3 := hdisj o2 (by simp [h2])
            simp only [List.map_append, List.mem_append]
            push_neg
            exact ⟨h3, by simpa using hknotrest o2 h2⟩)]
      simp [hk]

/-- C2 (amended): restart recovery is performed by load_open_orders (a
startup sync that the run loop itself never invokes): on a successful
snapshot it rebuilds the Local Order Book as exactly the venue rows that
carry an oid, with side/price/size/timestamp/coin translated by
rawToLocal.  The run loop's own reconcile step does not import venue
orders: starting from an empty local book, check_fills leaves the book
empty whatever the snapshot says. -/
theorem restart_recovery (stL stR : BotState) (l : List RawOrder)
    (snap : Option (List (Nat × ℚ))) (env : List (Option Nat)) (now : ℚ)
    (hoid : ∀ o ∈ l, o.oid ≠ none)
    (hnd : (l.map (fun o => o.oid.getD 0)).Nodup)
    (hempty : stR.open_orders = []) :
    (loadOpenOrders stL (some l)).open_orders =
      l.map (fun o => (o.oid.getD 0, rawToLocal o)) ∧
    (checkFills stR snap env now).1.open_orders = [] := by
  constructor
  · show loadBook l = _
    unfold loadBook
    rw [loadBook_fold l [] hoid hnd (by simp)]
    simp
  · match snap with
    | none => simpa using hempty
    | some lst =>
        simp only [checkFills]
        split
        · simpa using hempty
        · rw [(dropDangling_spec _ _).1]
          have : (checkFillsLoop lst now stR.open_orders stR env) = (stR, [], env) := by
            rw [hempty]
            rfl
          rw [this, hempty]
          rfl

/-- C2 counterexample: with two pre-existing venue orders in the snapshot,
one reconcile cycle of the running bot (which never calls
load_open_orders) leaves the restarted bot's empty Local Order Book empty
instead of recovering the two orders. -/
theorem restart_reconcile_recovers_nothing :
    (checkFills defSt (some [(10, 1/1000), (11, 2/1000)]) [] 0).1.open_orders = [] ∧
    ([(10, 1/1000), (11, 2/1000)] : List (Nat × ℚ)).length = 2 := by
  constructor
  · simp only [checkFills]
    rw [if_neg (by simp)]
    rw [(dropDangling_spec _ _).1]
    have : checkFillsLoop [(10, 1/1000), (11, 2/1000)] 0 defSt.open_orders defSt []
        = (defSt, [], []) := by
      rw [show defSt.open_orders = [] from rfl]
      rfl
    rw [this]
    rfl
  · rfl

/-- Witness for C2 on a two-row venue snapshot. -/
theorem restart_recovery_witness :
    (loadOpenOrders defSt
        (some [⟨some 10, "B", 99961, 1/1000, "UBTC", 50000⟩,
               ⟨some 11, "A", 100041, 2/1000, "UBTC", 60000⟩])).open_orders =
      [(10, rawToLocal ⟨some 10, "B", 99961, 1/1000, "UBTC", 50000⟩),
       (11, rawToLocal ⟨some 11, "A", 100041, 2/1000, "UBTC", 60000⟩)] ∧
    (checkFills { defSt with btc_balance := 1 } (some [(10, 1/1000)]) [] 0).1.open_orders
      = [] := by
  have h := restart_recovery defSt { defSt with btc_balance := 1 }
    [⟨some 10, "B", 99961, 1/1000, "UBTC", 50000⟩,
     ⟨some 11, "A", 100041, 2/1000, "UBTC", 60000⟩]
    (some [(10, 1/1000)]) [] 0
    (by intro o ho; fin_cases ho <;> simp)
    (by simp)
    rfl
  simpa using h

/-! ### C3: cooldown suppresses ensure, expiry and reprice still run -/

theorem ceLoop_preserves (now mid : ℚ) (entries : List (Nat × LocalOrder))
    (st : BotState) :
    (ceLoop now mid entries st).1.last_crash_time = st.last_crash_time ∧
    (ceLoop now mid entries st).1.cooldown_after_crash = st.cooldown_after_crash := by
  induction entries generalizing st with
  | nil => exact ⟨rfl, rfl⟩
  | cons p rest ih =>
      obtain ⟨k, o⟩ := p
      unfold ceLoop
      split
      · simpa [popOrderClear_eq] using ih (popOrderClear st k)
      · exact ih st

theorem rpLoop_preserves (mid : ℚ) (entries : List (Nat × LocalOrder))
    (st : BotState) :
    (rpLoop mid entries st).1.last_crash_time = st.last_crash_time ∧
    (rpLoop mid entries st).1.cooldown_after_crash = st.cooldown_after_crash := by
  induction entries generalizing st with
  | nil => exact ⟨rfl, rfl⟩
  | cons p rest ih =>
      obtain ⟨k, o⟩ := p
      unfold rpLoop
      split
      · simpa [popOrderClear_eq] using ih (popOrderClear st k)
      · exact ih st

theorem cancelExpired_preserves (st : BotState) (now : ℚ) :
    (cancelExpiredOrders st now).1.last_crash_time = st.last_crash_time ∧
    (cancelExpiredOrders st now).1.cooldown_after_crash = st.cooldown_after_crash := by
  unfold cancelExpiredOrders
  cases h : truthyQ (midPrice st) with
  | none => simp [h]
  | some mid => exact ceLoop_preserves now mid st.open_orders st

theorem reprice_preserves (st : BotState) :
    (repriceOrders st).1.last_crash_time = st.last_crash_time ∧
    (repriceOrders st).1.cooldown_after_crash = st.cooldown_after_crash := by
  unfold repriceOrders
  cases h : truthyQ (midPrice st) with
  | none => simp [h]
  | some mid => exact rpLoop_preserves mid st.open_orders st

/-- C3: on any tick within the post-crash cooldown window, ensure_orders
returns before any placement (no state change, no commands, untouched
outcome stream), while the same tick still runs the expiry and reprice
sweeps and the crash check exactly as if ensure were absent. -/
theorem cooldown_suppresses_ensure (st : BotState) (now : ℚ)
    (env : List (Option Nat)) (gw : Bool)
    (h : now - st.last_crash_time < st.cooldown_after_crash) :
    ensureOrders st now env = (st, [], env) ∧
    tick st now env gw =
      ((checkCrash (repriceOrders (cancelExpiredOrders st now).1).1 now gw).1,
        ⟨(cancelExpiredOrders st now).2,
          (repriceOrders (cancelExpiredOrders st now).1).2,
          [],
          (checkCrash (repriceOrders (cancelExpiredOrders st now).1).1 now gw).2⟩) := by
  have hens : ∀ s2 : BotState, s2.last_crash_time = st.last_crash_time →
      s2.cooldown_after_crash = st.cooldown_after_crash →
      ensureOrders s2 now env = (s2, [], env) := by
    intro s2 h1 h2
    unfold ensureOrders
    rw [if_pos (by rw [h1, h2]; exact h)]
  refine ⟨hens st rfl rfl, ?_⟩
  have hce := cancelExpired_preserves st now
  have hrp := reprice_preserves (cancelExpiredOrders st now).1
  simp only [tick]
  rw [hens (repriceOrders (cancelExpiredOrders st now).1).1
      (by rw [hrp.1, hce.1]) (by rw [hrp.2, hce.2])]

/-- Witness for C3 at a tick 50 s after a crash with a 180 s cooldown. -/
theorem cooldown_suppresses_ensure_witness :
    (150 : ℚ) - ({ defSt with last_crash_time := 100 } : BotState).last_crash_time <
        ({ defSt with last_crash_time := 100 } : BotState).cooldown_after_crash ∧
    ensureOrders { defSt with last_crash_time := 100 } 150 [some 7] =
      ({ defSt with last_crash_time := 100 }, [], [some 7]) :=
  ⟨by norm_num [defSt],
    (cooldown_suppresses_ensure { defSt with last_crash_time := 100 } 150 [some 7] true
      (by norm_num [defSt])).1⟩

/-! ### C10: cancel_all_open_orders local cleanup -/

theorem foldPop_book (entries : List (Nat × LocalOrder)) (st : BotState)
    (h : st.open_orders = entries) :
    ((entries.map Prod.fst).foldl popOrderClear st).open_orders = [] := by
  induction entries generalizing st with
  | nil => simpa using h
  | cons p rest ih =>
      rw [List.map_cons, List.foldl_cons]
      exact ih (popOrderClear st p.1) (by rw [popOrderClear_eq]; simp [h, eraseA_cons_self])

theorem foldPop_buy_none (keys : List Nat) (st : BotState)
    (h : st.base_buy_oid = none) :
    (keys.foldl popOrderClear st).base_buy_oid = none := by
  induction keys generalizing st with
  | nil => exact h
  | cons k rest ih =>
      rw [List.foldl_cons]
      exact ih _ (by rw [popOrderClear_eq]; simp [h])

theorem foldPop_buy (keys : List Nat) (st : BotState)
    (h : st.base_buy_oid = none ∨ ∃ k ∈ keys, st.base_buy_oid = some k) :
    (keys.foldl popOrderClear st).base_buy_oid = none := by
  induction keys generalizing st with
  | nil =>
      rcases h with h | ⟨k, hk, _⟩
      · exact h
      · exact absurd hk (List.not_mem_nil k)
  | cons k0 rest ih =>
      rw [List.foldl_cons]
      rcases h with h | ⟨k, hk, hsome⟩
      · exact foldPop_buy_none rest _ (by rw [popOrderClear_eq]; simp [h])
      · by_cases he : st.base_buy_oid = some k0
        · exact foldPop_buy_none rest _ (by rw [popOrderClear_eq]; simp [he])
        · rcases List.mem_cons.mp hk with rfl | hkr
          · exact absurd hsome he
          · have hne : k ≠ k0 := fun hkk => he (by rw [hsome, hkk])
            exact ih _ (Or.inr ⟨k, hkr, by rw [popOrderClear_eq]; simp [he, hsome, hne]⟩)

theorem foldPop_sell_none (keys : List Nat) (st : BotState)
    (h : st.base_sell_oid = none) (h2 : st.sell_ref_price = none) :
    (keys.foldl popOrderClear st).base_sell_oid = none ∧
    (keys.foldl popOrderClear st).sell_ref_price = none := by
  induction keys generalizing st with
  | nil => exact ⟨h, h2⟩
  | cons k rest ih =>
      rw [List.foldl_cons]
      exact ih _ (by rw [popOrderClear_eq]; simp [h]) (by rw [popOrderClear_eq]; simp [h, h2])

theorem foldPop_sell (keys : List Nat) (st : BotState)
    (hinv : st.base_sell_oid = none → st.sell_ref_price = none)
    (h : st.base_sell_oid = none ∨ ∃ k ∈ keys, st.base_sell_oid = some k) :
    (keys.foldl popOrderClear st).base_sell_oid = none ∧
    (keys.foldl popOrderClear st).sell_ref_price = none := by
  induction keys generalizing st with
  | nil =>
      rcases h with h | ⟨k, hk, _⟩
      · exact ⟨h, hinv h⟩
      · exact absurd hk (List.not_mem_nil k)
  | cons k0 rest ih =>
      rw [List.foldl_cons]
      by_cases he : st.base_sell_oid = some k0
      · exact foldPop_sell_none rest _ (by rw [popOrderClear_eq]; simp [he])
          (by rw [popOrderClear_eq]; simp [he])
      · rcases h with h | ⟨k, hk, hsome⟩
        · exact foldPop_sell_none rest _ (by rw [popOrderClear_eq]; simp [h, he])
            (by rw [popOrderClear_eq]; simp [h, he, hinv h])
        · rcases List.mem_cons.mp hk with rfl | hkr
          · exact absurd hsome he
          · have hne : k ≠ k0 := fun hkk => he (by rw [hsome, hkk])
            refine ih _ ?_ (Or.inr ⟨k, hkr, by rw [popOrderClear_eq]; simp [he, hsome, hne]⟩)
            rw [popOrderClear_eq]
            simp [he, hsome, hne]

theorem foldPop_extra_notmem (keys : List Nat) (st : BotState) (k : Nat)
    (h : k ∉ st.extra_sell_orders) :
    k ∉ (keys.foldl popOrderClear st).extra_sell_orders := by
  induction keys generalizing st with
  | nil => exact h
  | cons k0 rest ih =>
      rw [List.foldl_cons]
      refine ih _ ?_
      rw [popOrderClear_eq]
      intro hmem
      exact h (List.mem_of_mem_erase hmem)

theorem foldPop_extra (keys : List Nat) (st : BotState)
    (hx : st.extra_sell_orders.Nodup) :
    ∀ k ∈ keys, k ∉ (keys.foldl popOrderClear st).extra_sell_orders := by
  induction keys generalizing st with
  | nil => intro k hk; exact absurd hk (List.not_mem_nil k)
  | cons k0 rest ih =>
      intro k hk
      rw [List.foldl_cons]
      rcases List.mem_cons.mp hk with rfl | hkr
      · refine foldPop_extra_notmem rest _ k ?_
        rw [popOrderClear_eq]
        intro hmem
        exact absurd ((hx.mem_erase_iff.mp hmem).1) (by simp)
      · exact ih _ (by rw [popOrderClear_eq]; exact hx.erase k0) k hkr

/-- C10: after cancel_all_open_orders the local book is empty and, as long
as the tracked base_buy_oid/base_sell_oid referenced open orders (and a
cleared base_sell_oid implies a cleared sell_ref_price, as every mutation
site maintains), those references and the sell reference price are
cleared, and no formerly open oid survives in extra_sell_orders; the local
outcome is identical whether the venue bulk cancel succeeded (gw = true)
or raised (gw = false): local removal is unconditional on the gateway
outcome. -/
theorem cancelAll_unconditional_cleanup (st : BotState) (gw gw2 : Bool)
    (hb : ∀ k, st.base_buy_oid = some k → memKey st.open_orders k = true)
    (hs : ∀ k, st.base_sell_oid = some k → memKey st.open_orders k = true)
    (hr : st.base_sell_oid = none → st.sell_ref_price = none)
    (hx : st.extra_sell_orders.Nodup) :
    cancelAllOpenOrders st gw = cancelAllOpenOrders st gw2 ∧
    (cancelAllOpenOrders st gw).1.open_orders = [] ∧
    (cancelAllOpenOrders st gw).1.base_buy_oid = none ∧
    (cancelAllOpenOrders st gw).1.base_sell_oid = none ∧
    (cancelAllOpenOrders st gw).1.sell_ref_price = none ∧
    ∀ k ∈ st.open_orders.map Prod.fst,
      k ∉ (cancelAllOpenOrders st gw).1.extra_sell_orders := by
  refine ⟨rfl, ?_⟩
  unfold cancelAllOpenOrders
  by_cases hemp : st.open_orders.isEmpty
  · rw [if_pos hemp]
    have hnil : st.open_orders = [] := List.isEmpty_iff.mp hemp
    have hbuy : st.base_buy_oid = none := by
      cases hB : st.base_buy_oid with
      | none => rfl
      | some k => exact absurd (hb k hB) (by simp [hnil, memKey])
    have hsell : st.base_sell_oid = none := by
      cases hS : st.base_sell_oid with
      | none => rfl
      | some k => exact absurd (hs k hS) (by simp [hnil, memKey])
    exact ⟨hnil, hbuy, hsell, hr hsell, by simp [hnil]⟩
  · rw [if_neg hemp]
    have hmem : ∀ t : Option Nat,
        (∀ k, t = some k → memKey st.open_orders k = true) →
        t = none ∨ ∃ k ∈ st.open_orders.map Prod.fst, t = some k := by
      intro t ht
      cases hT : t with
      | none => exact Or.inl rfl
      | some k =>
          exact Or.inr ⟨k, (memKey_iff _ _).mp (ht k hT), rfl⟩
    refine ⟨foldPop_book st.open_orders st rfl, ?_, ?_, ?_, ?_⟩
    · exact foldPop_buy _ st (hmem _ hb)
    · exact (foldPop_sell _ st hr (hmem _ hs)).1
    · exact (foldPop_sell _ st hr (hmem _ hs)).2
    · exact foldPop_extra _ st hx

/-- Witness for C10 on a two-order book with both sides tracked, comparing
a successful and a failing bulk cancel. -/
theorem cancelAll_unconditional_cleanup_witness :
    (cancelAllOpenOrders { defSt with
        open_orders := [(1, ordA), (2, ⟨Side.sell, 100041, 1/1000, 0, "UBTC"⟩)],
        base_buy_oid := some 1, base_sell_oid := some 2,
        sell_ref_price := some 100041, extra_sell_orders := [2] } true
      = cancelAllOpenOrders { defSt with
        open_orders := [(1, ordA), (2, ⟨Side.sell, 100041, 1/1000, 0, "UBTC"⟩)],
        base_buy_oid := some 1, base_sell_oid := some 2,
        sell_ref_price := some 100041, extra_sell_orders := [2] } false) ∧
    (cancelAllOpenOrders { defSt with
        open_orders := [(1, ordA), (2, ⟨Side.sell, 100041, 1/1000, 0, "UBTC"⟩)],
        base_buy_oid := some 1, base_sell_oid := some 2,
        sell_ref_price := some 100041, extra_sell_orders := [2] } true).1.open_orders
      = [] := by
  have h := cancelAll_unconditional_cleanup { defSt with
      open_orders := [(1, ordA), (2, ⟨Side.sell, 100041, 1/1000, 0, "UBTC"⟩)],
      base_buy_oid := some 1, base_sell_oid := some 2,
      sell_ref_price := some 100041, extra_sell_orders := [2] } true false
    (by intro k hk; simp at hk; simp [memKey, ← hk])
    (by intro k hk; simp at hk; simp [memKey, ← hk])
    (by intro h2; simp at h2)
    (by simp)
  exact ⟨h.1, h.2.1⟩

/-! ### C4: crash trip -/

theorem cancelAll_book_empty (st : BotState) (gw : Bool) :
    (cancelAllOpenOrders st gw).1.open_orders = [] := by
  unfold cancelAllOpenOrders
  by_cases h : st.open_orders.isEmpty
  · rw [if_pos h]
    exact List.isEmpty_iff.mp h
  · rw [if_neg h]
    exact foldPop_book st.open_orders st rfl

theorem foldPop_keeps (keys : List Nat) (st : BotState) :
    (keys.foldl popOrderClear st).btc_balance = st.btc_balance ∧
    (keys.foldl popOrderClear st).best_bid = st.best_bid := by
  induction keys generalizing st with
  | nil => exact ⟨rfl, rfl⟩
  | cons k rest ih =>
      rw [List.foldl_cons]
      simpa [popOrderClear_eq] using ih (popOrderClear st k)

theorem cancelAll_keeps (st : BotState) (gw : Bool) :
    (cancelAllOpenOrders st gw).1.btc_balance = st.btc_balance ∧
    (cancelAllOpenOrders st gw).1.best_bid = st.best_bid := by
  unfold cancelAllOpenOrders
  by_cases h : st.open_orders.isEmpty
  · rw [if_pos h]
    exact ⟨rfl, rfl⟩
  · rw [if_neg h]
    exact foldPop_keeps _ st

theorem cancelAll_cmds (st : BotState) (gw : Bool) :
    (cancelAllOpenOrders st gw).2 = [] ∨
    (cancelAllOpenOrders st gw).2 =
      [Cmd.bulkCancel (st.open_orders.map (fun p => (p.2.coin, p.1)))] := by
  unfold cancelAllOpenOrders
  by_cases h : st.open_orders.isEmpty
  · rw [if_pos h]; exact Or.inl rfl
  · rw [if_neg h]; exact Or.inr rfl

theorem flattenPx_congr (st1 st2 : BotState) (x : ℚ)
    (h : st1.best_bid = st2.best_bid) : flattenPx st1 x = flattenPx st2 x := by
  unfold flattenPx
  rw [h]

/-- C4 (amended): whenever the sample sequence has at least two entries
(the code requires two, not mere non-emptiness) with positive maximum and
(max − latest) / max ≥ crash_threshold, check_crash empties the local
book, bulk-cancels the formerly open orders, on positive BTC balance
submits a reduce-only IOC sell of the whole balance priced at the truthy
best bid or else the latest mid, clears the sample sequence and sets
last_crash_time to now; whenever the drop is below the threshold nothing
happens at all. -/
theorem checkCrash_behavior (st : BotState) (now : ℚ) (gw : Bool) :
    ((2 ≤ st.price_history.length ∧ 0 < maxMid st.price_history ∧
      st.crash_threshold ≤
        (maxMid st.price_history - latestMid st.price_history) / maxMid st.price_history) →
      ((checkCrash st now gw).1.open_orders = [] ∧
       (checkCrash st now gw).1.price_history = [] ∧
       (checkCrash st now gw).1.last_crash_time = now ∧
       (st.open_orders ≠ [] →
         Cmd.bulkCancel (st.open_orders.map (fun p => (p.2.coin, p.1)))
           ∈ (checkCrash st now gw).2) ∧
       (0 < st.btc_balance →
         Cmd.place Side.sell (flattenPx st (latestMid st.price_history))
             st.btc_balance "Ioc" true ∈ (checkCrash st now gw).2) ∧
       (st.btc_balance ≤ 0 →
         ∀ s px sz tf ro, Cmd.place s px sz tf ro ∉ (checkCrash st now gw).2))) ∧
    ((maxMid st.price_history - latestMid st.price_history) / maxMid st.price_history
        < st.crash_threshold →
      checkCrash st now gw = (st, [])) := by
  constructor
  · rintro ⟨h2, hpos, hth⟩
    have hifs : checkCrash st now gw =
        ({ (cancelAllOpenOrders st gw).1 with price_history := [], last_crash_time := now },
          (cancelAllOpenOrders st gw).2 ++
            (if 0 < (cancelAllOpenOrders st gw).1.btc_balance then
              [Cmd.place Side.sell
                (flattenPx (cancelAllOpenOrders st gw).1 (latestMid st.price_history))
                (cancelAllOpenOrders st gw).1.btc_balance "Ioc" true]
            else [])) := by
      unfold checkCrash
      rw [if_neg (Nat.not_lt.mpr h2), if_neg (not_le.mpr hpos), if_pos hth]
    rw [hifs]
    have hkeep := cancelAll_keeps st gw
    refine ⟨?_, rfl, rfl, ?_, ?_, ?_⟩
    · show (cancelAllOpenOrders st gw).1.open_orders = []
      exact cancelAll_book_empty st gw
    · intro hne
      rcases cancelAll_cmds st gw with h | h
      · exfalso
        revert h
        unfold cancelAllOpenOrders
        rw [if_neg (by simpa using hne)]
        simp
      · rw [h]
        simp
    · intro hbtc
      rw [hkeep.1, if_pos hbtc, flattenPx_congr _ st _ hkeep.2]
      simp
    · intro hbtc s px sz tf ro
      rw [hkeep.1, if_neg (not_lt.mpr hbtc)]
      rcases cancelAll_cmds st gw with h | h <;> simp [h]
  · intro hlt
    unfold checkCrash
    by_cases hl : st.price_history.length < 2
    · rw [if_pos hl]
    · rw [if_neg hl]
      by_cases hm : maxMid st.price_history ≤ 0
      · rw [if_pos hm]
      · rw [if_neg hm, if_neg (not_le.mpr hlt)]

/-- C4 counterexample: a single-sample history with positive maximum and a
zero crash threshold satisfies the claim's "non-empty with drop ≥
threshold" premise, yet check_crash does nothing (the code needs two
samples): no cancel, no flatten, no timestamp. -/
theorem single_sample_no_trip :
    oneSampleSt.price_history ≠ [] ∧
    0 < maxMid oneSampleSt.price_history ∧
    oneSampleSt.crash_threshold ≤
      (maxMid oneSampleSt.price_history - latestMid oneSampleSt.price_history) /
        maxMid oneSampleSt.price_history ∧
    oneSampleSt.open_orders ≠ [] ∧
    checkCrash oneSampleSt 5 true = (oneSampleSt, []) ∧
    oneSampleSt.last_crash_time ≠ 5 := by
  refine ⟨by simp [oneSampleSt, defSt], ?_, ?_, by simp [oneSampleSt, defSt], rfl, ?_⟩
  · norm_num [oneSampleSt, defSt, maxMid]
  · norm_num [oneSampleSt, defSt, maxMid, latestMid, List.getLast?]
  · norm_num [oneSampleSt, defSt]

/-- Witness for C4 on spec scenario 4's drop with a held balance. -/
theorem checkCrash_behavior_witness :
    (checkCrash crashSt 7 true).1.open_orders = [] ∧
    (checkCrash crashSt 7 true).1.price_history = [] ∧
    (checkCrash crashSt 7 true).1.last_crash_time = 7 ∧
    Cmd.place Side.sell (flattenPx crashSt (latestMid crashSt.price_history))
        crashSt.btc_balance "Ioc" true ∈ (checkCrash crashSt 7 true).2 := by
  have h := (checkCrash_behavior crashSt 7 true).1
    ⟨by norm_num [crashSt, defSt],
     by norm_num [crashSt, defSt, maxMid],
     by norm_num [crashSt, defSt, maxMid, latestMid, List.getLast?]⟩
  exact ⟨h.1, h.2.1, h.2.2.1, h.2.2.2.2.1 (by norm_num [crashSt, defSt])⟩

/-! ### C8: expiry requires both age and deviation -/

theorem ceLoop_spec (now mid A T : ℚ) (entries kept : List (Nat × LocalOrder))
    (st : BotState)
    (hbook : st.open_orders = kept ++ entries)
    (hnd : ((kept ++ entries).map Prod.fst).Nodup)
    (hA : st.max_order_age = A) (hT : st.price_expiry_threshold = T) :
    (ceLoop now mid entries st).1.open_orders =
      kept ++ entries.filter
        (fun p => ¬(A < now - p.2.timestamp ∧ T ≤ |mid - p.2.price|)) ∧
    (ceLoop now mid entries st).2 =
      (entries.filter
        (fun p => A < now - p.2.timestamp ∧ T ≤ |mid - p.2.price|)).map
        (fun p => Cmd.cancel p.2.coin p.1) := by
  induction entries generalizing kept st with
  | nil => exact ⟨by simpa using hbook, rfl⟩
  | cons p rest ih =>
      obtain ⟨k, o⟩ := p
      have hnd2 := List.nodup_append.mp (by simpa using hnd :
        (kept.map Prod.fst ++ ((k, o) :: rest).map Prod.fst).Nodup)
      have hknk : k ∉ kept.map Prod.fst := by
        intro hmem
        exact hnd2.2.2 hmem (by simp)
      have hknr : k ∉ rest.map Prod.fst := by
        have h2 := hnd2.2.1
        simp only [List.map_cons, List.nodup_cons] at h2
        exact h2.1
      unfold ceLoop
      rw [hA, hT]
      by_cases hcond : A < now - o.timestamp ∧ T ≤ |mid - o.price|
      · rw [if_pos hcond]
        have hlook : cancelOrder st k = [Cmd.cancel o.coin k] := by
          unfold cancelOrder
          rw [hbook, lookupA_append_right kept _ k hknk]
          simp [lookupA]
        have hbook1 : (popOrderClear st k).open_orders = kept ++ rest := by
          rw [popOrderClear_eq]
          show eraseA st.open_orders k = kept ++ rest
          rw [hbook, eraseA_append_right kept _ k hknk,
            eraseA_cons_self (k, o) rest]
        have hnd1 : ((kept ++ rest).map Prod.fst).Nodup := by
          rw [List.map_append, List.nodup_append]
          refine ⟨hnd2.1, ?_, ?_⟩
          · have h2 := hnd2.2.1
            simp only [List.map_cons, List.nodup_cons] at h2
            exact h2.2
          · intro x hx hx2
            exact hnd2.2.2 hx (by simp [hx2])
        have hrec := ih kept (popOrderClear st k) hbook1 hnd1
          (by rw [popOrderClear_eq]; exact hA) (by rw [popOrderClear_eq]; exact hT)
        refine ⟨?_, ?_⟩
        · show (ceLoop now mid rest (popOrderClear st k)).1.open_orders = _
          rw [hrec.1]
          simp [hcond]
        · show cancelOrder st k ++ (ceLoop now mid rest (popOrderClear st k)).2 = _
          rw [hlook, hrec.2]
          simp [hcond]
      · rw [if_neg hcond]
        have hrec := ih (kept ++ [(k, o)]) st
          (by rw [hbook]; simp) (by simpa using hnd) hA hT
        refine ⟨?_, ?_⟩
        · rw [hrec.1, List.filter_cons_of_pos (by
            simp only [decide_eq_true_eq]
            exact hcond)]
          simp
        · rw [hrec.2]
          simp [hcond]

/-- C8 (amended): with a truthy mid and distinct book keys, the expiry
sweep removes a local order exactly when its age strictly exceeds
max_order_age AND its absolute deviation from mid reaches
price_expiry_threshold (≥, not strictly exceeds), emitting one cancel per
removed order; an order failing either test is left in place. -/
theorem cancelExpired_exact (st : BotState) (now mid : ℚ)
    (hmid : truthyQ (midPrice st) = some mid)
    (hnd : (st.open_orders.map Prod.fst).Nodup) :
    (cancelExpiredOrders st now).1.open_orders =
      st.open_orders.filter
        (fun p => ¬(st.max_order_age < now - p.2.timestamp ∧
                    st.price_expiry_threshold ≤ |mid - p.2.price|)) ∧
    (cancelExpiredOrders st now).2 =
      (st.open_orders.filter
        (fun p => st.max_order_age < now - p.2.timestamp ∧
                  st.price_expiry_threshold ≤ |mid - p.2.price|)).map
        (fun p => Cmd.cancel p.2.coin p.1) := by
  unfold cancelExpiredOrders
  rw [hmid]
  exact ceLoop_spec now mid st.max_order_age st.price_expiry_threshold
    st.open_orders [] st (by simp) (by simpa using hnd) rfl rfl

/-- C8 counterexample: an aged order whose deviation equals the threshold
exactly (500, not more) is cancelled by the code, though the claim's
strict "exceeds" reading would leave it in place. -/
theorem expiry_tie_cancelled :
    tieSt.max_order_age < (100 : ℚ) - 0 ∧
    ¬(tieSt.price_expiry_threshold < |(100001 : ℚ) - 99501|) ∧
    truthyQ (midPrice tieSt) = some 100001 ∧
    tieSt.open_orders ≠ [] ∧
    (cancelExpiredOrders tieSt 100).1.open_orders = [] := by
  refine ⟨by norm_num [tieSt, defSt], by norm_num [tieSt, defSt],
    by norm_num [truthyQ, midPrice, tieSt, defSt], by simp [tieSt, defSt], ?_⟩
  norm_num [cancelExpiredOrders, ceLoop, truthyQ, midPrice, cancelOrder,
    lookupA, popOrderClear, eraseA, tieSt, defSt]

/-- Witness for C8 on a book with one expired-and-far order and one
aged-but-near order. -/
theorem cancelExpired_exact_witness :
    (cancelExpiredOrders expSt 100).1.open_orders =
      expSt.open_orders.filter
        (fun p => ¬(expSt.max_order_age < 100 - p.2.timestamp ∧
                    expSt.price_expiry_threshold ≤ |100001 - p.2.price|)) ∧
    (cancelExpiredOrders expSt 100).2 =
      (expSt.open_orders.filter
        (fun p => expSt.max_order_age < 100 - p.2.timestamp ∧
                  expSt.price_expiry_threshold ≤ |100001 - p.2.price|)).map
        (fun p => Cmd.cancel p.2.coin p.1) :=
  cancelExpired_exact expSt 100 100001
    (by norm_num [truthyQ, midPrice, expSt, defSt])
    (by simp [expSt, defSt])

/-! ### C6: partial fill handling -/

/-- C6 (amended): when the snapshot reports the (single) booked order with
remaining size strictly below the stored size, check_fills shrinks the
stored size to the remaining size, updates the inventory with the filled
quantity at the stored price (base += filled, quote −= filled·price for a
buy), and places one replacement sell priced at the skewed spread around
mid; the replacement's size is round(usd_order_size / px, size_decimals) —
derived from the fixed USD notional, not from the filled quantity. -/
theorem checkFills_shrink_and_replace (st : BotState) (oid nid : Nat) (o : LocalOrder)
    (remain b a px sz : ℚ) (now : ℚ)
    (hbook : st.open_orders = [(oid, o)])
    (hside : o.side = Side.buy)
    (hrem : remain < o.size)
    (hb : st.best_bid = some b) (ha : st.best_ask = some a)
    (hb0 : b ≠ 0) (ha0 : a ≠ 0) (hm0 : (b + a) / 2 ≠ 0)
    (hn0 : nid ≠ 0) (hneq : nid ≠ oid)
    (hpx : px = roundPrice st ((b + a) / 2 *
      (1 + (getSpreads (updateInventory st Side.buy (o.size - remain) o.price)).2)))
    (hsz : sz = pyRound (st.usd_order_size / px) st.decimals)
    (hpxpos : 0 < px) (hszpos : 0 < sz) :
    (checkFills st (some [(oid, remain)]) [some nid] now).1.open_orders
        = [(oid, { o with size := remain })] ∧
    (checkFills st (some [(oid, remain)]) [some nid] now).1.btc_balance
        = st.btc_balance + (o.size - remain) ∧
    (checkFills st (some [(oid, remain)]) [some nid] now).1.usdc_balance
        = st.usdc_balance - (o.size - remain) * o.price ∧
    (checkFills st (some [(oid, remain)]) [some nid] now).2
        = [Cmd.place Side.sell px sz "Gtc" false] := by
  have hnotle : ¬(px ≤ 0 ∨ sz ≤ 0) := not_or.mpr ⟨not_le.mpr hpxpos, not_le.mpr hszpos⟩
  have hloop : checkFillsLoop [(oid, remain)] now [(oid, o)] st [some nid]
      = ({ st with
            open_orders := [(oid, { o with size := remain }),
              (nid, mkOrder Side.sell px sz now st.coin_code)]
            btc_balance := st.btc_balance + (o.size - remain)
            usdc_balance := st.usdc_balance - (o.size - remain) * o.price
            base_sell_oid := some nid
            sell_ref_price := some px
            extra_sell_orders := [] },
         [Cmd.place Side.sell px sz "Gtc" false], []) := by
    subst hsz
    subst hpx
    simp only [checkFillsLoop, replaceOpposite, updateInventory, placeOrder,
      mkOrder, Side.opp, lookupA, midPrice, truthyQ, truthyOid, insertA, memKey,
      getSpreads, roundPrice, pyRound, hb, ha, hbook, hside] at hnotle ⊢
    simp [hrem, hb0, ha0, hm0, hn0, hneq, Ne.symm hneq, hnotle, hside]
  have hcf : checkFills st (some [(oid, remain)]) [some nid] now
      = (dropDangling (checkFillsLoop [(oid, remain)] now st.open_orders st [some nid]).1
          [(oid, remain)],
         (checkFillsLoop [(oid, remain)] now st.open_orders st [some nid]).2.1) := by
    simp only [checkFills]
    rw [if_neg (by simp)]
  rw [hcf, hbook, hloop]
  refine ⟨?_, ?_, ?_, rfl⟩
  · rw [(dropDangling_spec _ _).1]
    show List.filter _ [(oid, _), (nid, _)] = _
    simp [memKey, hneq]
  · rw [(dropDangling_spec _ _).2.1]
  · rw [(dropDangling_spec _ _).2.2]

/-- C6 counterexample: in the spec's worked example (local buy at 99961
for 0.001, venue remaining 0.0004) the replacement sell is priced at
100041 but sized round(100/100041, 5) = 0.001 by the fixed USD notional —
not 0.0006, the filled quantity the claim states. -/
theorem replacement_size_not_filled_qty :
    (checkFills bookSt (some [(1, 4/10000)]) [some 2] 50).2
      = [Cmd.place Side.sell 100041 (1/1000) "Gtc" false] ∧
    (1 : ℚ)/1000 ≠ 6/10000 := by
  constructor
  · norm_num [checkFills, checkFillsLoop, replaceOpposite, updateInventory,
      midPrice, truthyQ, getSpreads, roundPrice, pyRound, rndHalfEven,
      placeOrder, truthyOid, lookupA, memKey, insertA, mkOrder, Side.opp,
      dropDangling, oidDangling, bookSt, defSt, ordA]
  · norm_num

/-- Witness for C6 on the worked example: shrink to 0.0004, base +0.0006,
quote −0.0006·99961, replacement sell at 100041 for size 0.001. -/
theorem checkFills_shrink_and_replace_witness :
    (checkFills bookSt (some [(1, 4/10000)]) [some 2] 50).1.open_orders
        = [(1, { ordA with size := 4/10000 })] ∧
    (checkFills bookSt (some [(1, 4/10000)]) [some 2] 50).1.btc_balance
        = bookSt.btc_balance + (ordA.size - 4/10000) ∧
    (checkFills bookSt (some [(1, 4/10000)]) [some 2] 50).1.usdc_balance
        = bookSt.usdc_balance - (ordA.size - 4/10000) * ordA.price ∧
    (checkFills bookSt (some [(1, 4/10000)]) [some 2] 50).2
        = [Cmd.place Side.sell 100041 (1/1000) "Gtc" false] :=
  checkFills_shrink_and_replace bookSt 1 2 ordA (4/10000) 100000 100002 100041 (1/1000) 50
    rfl rfl (by norm_num [ordA]) rfl rfl (by norm_num) (by norm_num) (by norm_num)
    (by norm_num) (by norm_num)
    (by norm_num [roundPrice, rndHalfEven, getSpreads, updateInventory,
      bookSt, defSt, ordA])
    (by norm_num [pyRound, rndHalfEven, bookSt, defSt])
    (by norm_num) (by norm_num)

/-! ### C9: price and size quantization -/

theorem rndHalfEven_close (q : ℚ) : |(rndHalfEven q : ℚ) - q| ≤ 1/2 := by
  simp only [rndHalfEven]
  have h0 : (0 : ℚ) ≤ q - ⌊q⌋ := by
    have := Int.floor_le q
    linarith
  have h1 : q - ⌊q⌋ < 1 := by
    have := Int.lt_floor_add_one q
    linarith
  by_cases hc1 : q - ⌊q⌋ < 1/2
  · rw [if_pos hc1, abs_le]
    constructor <;> linarith
  · rw [if_neg hc1]
    by_cases hc2 : (1 : ℚ)/2 < q - ⌊q⌋
    · rw [if_pos hc2, abs_le]
      constructor <;> push_cast <;> linarith
    · rw [if_neg hc2]
      by_cases hc3 : (⌊q⌋ : ℤ) % 2 = 0
      · rw [if_pos hc3, abs_le]
        constructor <;> linarith
      · rw [if_neg hc3, abs_le]
        constructor <;> push_cast <;> linarith

theorem roundPrice_near (st : BotState) (ht : 0 < st.price_tick) (raw : ℚ) :
    |roundPrice st raw - raw| ≤ st.price_tick / 2 := by
  unfold roundPrice
  have h := rndHalfEven_close (raw / st.price_tick)
  have ht0 : st.price_tick ≠ 0 := ne_of_gt ht
  have hsplit : (rndHalfEven (raw / st.price_tick) : ℚ) * st.price_tick - raw
      = ((rndHalfEven (raw / st.price_tick) : ℚ) - raw / st.price_tick) * st.price_tick := by
    field_simp
  rw [hsplit, abs_mul, abs_of_pos ht]
  calc |(rndHalfEven (raw / st.price_tick) : ℚ) - raw / st.price_tick| * st.price_tick
      ≤ (1/2) * st.price_tick := mul_le_mul_of_nonneg_right h ht.le
    _ = st.price_tick / 2 := by ring

theorem roundPrice_tickMultiple (st : BotState) (raw t : ℚ)
    (ht : st.price_tick = t) : tickMultiple t (roundPrice st raw) :=
  ⟨rndHalfEven (raw / st.price_tick), by rw [roundPrice, ht]⟩

theorem pyRound_sizeQuantized (x : ℚ) (n : ℕ) (d : ℕ) (hd : n = d) :
    sizeQuantized d (pyRound x n) :=
  ⟨rndHalfEven (x * 10 ^ n), by rw [pyRound, hd]⟩

theorem quantCmds_nil (t : ℚ) (d : ℕ) : quantCmds t d [] := by
  intro c hc
  simp at hc

theorem quantCmds_append (t : ℚ) (d : ℕ) (l1 l2 : List Cmd)
    (h1 : quantCmds t d l1) (h2 : quantCmds t d l2) :
    quantCmds t d (l1 ++ l2) := by
  intro c hc
  rcases List.mem_append.mp hc with h | h
  · exact h1 c h
  · exact h2 c h

theorem placeOrder_quant (env : List (Option Nat)) (side : Side) (px sz t : ℚ)
    (d : ℕ) (h1 : tickMultiple t px) (h2 : sizeQuantized d sz) :
    quantCmds t d (placeOrder env side px sz).2.1 := by
  intro c hc s px2 sz2 tf ro hceq
  unfold placeOrder at hc
  have hc2 : c = Cmd.place side px sz "Gtc" false := by
    split at hc
    · simp at hc
    · split at hc <;> simpa using hc
  rw [hc2, Cmd.place.injEq] at hceq
  obtain ⟨hs, hpx, hsz, htf, hro⟩ := hceq
  exact ⟨hpx ▸ h1, hsz ▸ h2⟩

theorem replaceOpposite_keeps (st : BotState) (side : Side) (now : ℚ)
    (env : List (Option Nat)) :
    (replaceOpposite st side now env).1.price_tick = st.price_tick ∧
    (replaceOpposite st side now env).1.decimals = st.decimals ∧
    (replaceOpposite st side now env).1.usd_order_size = st.usd_order_size := by
  simp only [replaceOpposite]
  split
  · exact ⟨rfl, rfl, rfl⟩
  · split
    · split <;> exact ⟨rfl, rfl, rfl⟩
    · exact ⟨rfl, rfl, rfl⟩

theorem replaceOpposite_quant (st : BotState) (side : Side) (now : ℚ)
    (env : List (Option Nat)) (t : ℚ) (d : ℕ)
    (ht : st.price_tick = t) (hd : st.decimals = d) :
    quantCmds t d (replaceOpposite st side now env).2.1 := by
  simp only [replaceOpposite]
  split
  · exact quantCmds_nil t d
  · have hq : ∀ raw : ℚ, quantCmds t d
        (placeOrder env side.opp (roundPrice st raw)
          (pyRound (st.usd_order_size / roundPrice st raw) st.decimals)).2.1 :=
      fun raw => placeOrder_quant _ _ _ _ _ _
        (roundPrice_tickMultiple st raw t ht) (pyRound_sizeQuantized _ _ _ hd)
    split
    · split_ifs <;> exact hq _
    · split_ifs <;> exact hq _

theorem updateInventory_keeps (st : BotState) (side : Side) (q p : ℚ) :
    (updateInventory st side q p).price_tick = st.price_tick ∧
    (updateInventory st side q p).decimals = st.decimals ∧
    (updateInventory st side q p).usd_order_size = st.usd_order_size := by
  cases side <;> exact ⟨rfl, rfl, rfl⟩

theorem checkFillsLoop_keeps (snap : List (Nat × ℚ)) (now : ℚ)
    (entries : List (Nat × LocalOrder)) (st : BotState) (env : List (Option Nat)) :
    (checkFillsLoop snap now entries st env).1.price_tick = st.price_tick ∧
    (checkFillsLoop snap now entries st env).1.decimals = st.decimals ∧
    (checkFillsLoop snap now entries st env).1.usd_order_size = st.usd_order_size := by
  induction entries generalizing st env with
  | nil => exact ⟨rfl, rfl, rfl⟩
  | cons p rest ih =>
      obtain ⟨k, o⟩ := p
      simp only [checkFillsLoop]
      split
      · split
        · exact ⟨(ih _ _).1.trans ((replaceOpposite_keeps _ _ _ _).1.trans
              (updateInventory_keeps _ _ _ _).1),
            (ih _ _).2.1.trans ((replaceOpposite_keeps _ _ _ _).2.1.trans
              (updateInventory_keeps _ _ _ _).2.1),
            (ih _ _).2.2.trans ((replaceOpposite_keeps _ _ _ _).2.2.trans
              (updateInventory_keeps _ _ _ _).2.2)⟩
        · exact ih st env
      · refine ⟨(ih _ _).1.trans ?_, (ih _ _).2.1.trans ?_, (ih _ _).2.2.trans ?_⟩
        · rw [popOrderClear_eq]
          exact (replaceOpposite_keeps _ _ _ _).1.trans (updateInventory_keeps _ _ _ _).1
        · rw [popOrderClear_eq]
          exact (replaceOpposite_keeps _ _ _ _).2.1.trans
            (updateInventory_keeps _ _ _ _).2.1
        · rw [popOrderClear_eq]
          exact (replaceOpposite_keeps _ _ _ _).2.2.trans
            (updateInventory_keeps _ _ _ _).2.2

theorem checkFillsLoop_quant (snap : List (Nat × ℚ)) (now : ℚ)
    (entries : List (Nat × LocalOrder)) (st : BotState) (env : List (Option Nat))
    (t : ℚ) (d : ℕ) (ht : st.price_tick = t) (hd : st.decimals = d) :
    quantCmds t d (checkFillsLoop snap now entries st env).2.1 := by
  induction entries generalizing st env with
  | nil => exact quantCmds_nil t d
  | cons p rest ih =>
      obtain ⟨k, o⟩ := p
      simp only [checkFillsLoop]
      split
      · split
        · refine quantCmds_append _ _ _ _ ?_ (ih _ _ ?_ ?_)
          · exact replaceOpposite_quant _ _ _ _ _ _
              ((updateInventory_keeps _ _ _ _).1.trans ht)
              ((updateInventory_keeps _ _ _ _).2.1.trans hd)
          · exact (replaceOpposite_keeps _ _ _ _).1.trans
              ((updateInventory_keeps _ _ _ _).1.trans ht)
          · exact (replaceOpposite_keeps _ _ _ _).2.1.trans
              ((updateInventory_keeps _ _ _ _).2.1.trans hd)
        · exact ih st env ht hd
      · refine quantCmds_append _ _ _ _ ?_ (ih _ _ ?_ ?_)
        · exact replaceOpposite_quant _ _ _ _ _ _
            ((updateInventory_keeps _ _ _ _).1.trans ht)
            ((updateInventory_keeps _ _ _ _).2.1.trans hd)
        · rw [popOrderClear_eq]
          exact (replaceOpposite_keeps _ _ _ _).1.trans
            ((updateInventory_keeps _ _ _ _).1.trans ht)
        · rw [popOrderClear_eq]
          exact (replaceOpposite_keeps _ _ _ _).2.1.trans
            ((updateInventory_keeps _ _ _ _).2.1.trans hd)

theorem extraLoop_quant (mid ref now : ℚ) (t : ℚ) (d : ℕ) :
    ∀ (fuel ld : ℕ) (st : BotState) (env : List (Option Nat)),
    st.price_tick = t → st.decimals = d →
    quantCmds t d (extraLoop mid ref now ld st env fuel).2.1 := by
  intro fuel
  induction fuel with
  | zero => intro ld st env ht hd; exact quantCmds_nil t d
  | succ n ih =>
      intro ld st env ht hd
      simp only [extraLoop]
      split
      · split
        · exact quantCmds_append _ _ _ _
            (placeOrder_quant _ _ _ _ _ _ (roundPrice_tickMultiple st _ t ht)
              (pyRound_sizeQuantized _ _ _ hd))
            (ih _ _ _ ht hd)
        · exact placeOrder_quant _ _ _ _ _ _ (roundPrice_tickMultiple st _ t ht)
            (pyRound_sizeQuantized _ _ _ hd)
      · exact quantCmds_nil t d

theorem placeAdditional_quant (st : BotState) (mid now : ℚ)
    (env : List (Option Nat)) (t : ℚ) (d : ℕ)
    (ht : st.price_tick = t) (hd : st.decimals = d) :
    quantCmds t d (placeAdditionalSellOrders st mid now env).2.1 := by
  simp only [placeAdditionalSellOrders]
  split
  · exact quantCmds_nil t d
  · split
    · exact quantCmds_nil t d
    · exact extraLoop_quant mid _ now t d _ _ st env ht hd

theorem ensureBuyLeg_keeps (st : BotState) (mid now s : ℚ) (env : List (Option Nat)) :
    (ensureBuyLeg st mid now s env).1.price_tick = st.price_tick ∧
    (ensureBuyLeg st mid now s env).1.decimals = st.decimals ∧
    (ensureBuyLeg st mid now s env).1.usd_order_size = st.usd_order_size := by
  simp only [ensureBuyLeg]
  split
  · split <;> exact ⟨rfl, rfl, rfl⟩
  · exact ⟨rfl, rfl, rfl⟩

theorem ensureBuyLeg_quant (st : BotState) (mid now s : ℚ) (env : List (Option Nat))
    (t : ℚ) (d : ℕ) (ht : st.price_tick = t) (hd : st.decimals = d) :
    quantCmds t d (ensureBuyLeg st mid now s env).2.1 := by
  simp only [ensureBuyLeg]
  split
  · split <;>
      exact placeOrder_quant _ _ _ _ _ _ (roundPrice_tickMultiple st _ t ht)
        (pyRound_sizeQuantized _ _ _ hd)
  · exact quantCmds_nil t d

theorem ensureSellLeg_keeps (st : BotState) (mid now s : ℚ) (env : List (Option Nat)) :
    (ensureSellLeg st mid now s env).1.price_tick = st.price_tick ∧
    (ensureSellLeg st mid now s env).1.decimals = st.decimals ∧
    (ensureSellLeg st mid now s env).1.usd_order_size = st.usd_order_size := by
  simp only [ensureSellLeg]
  split
  · split <;> exact ⟨rfl, rfl, rfl⟩
  · exact ⟨rfl, rfl, rfl⟩

theorem ensureSellLeg_quant (st : BotState) (mid now s : ℚ) (env : List (Option Nat))
    (t : ℚ) (d : ℕ) (ht : st.price_tick = t) (hd : st.decimals = d) :
    quantCmds t d (ensureSellLeg st mid now s env).2.1 := by
  simp only [ensureSellLeg]
  split
  · split <;>
      exact placeOrder_quant _ _ _ _ _ _ (roundPrice_tickMultiple st _ t ht)
        (pyRound_sizeQuantized _ _ _ hd)
  · exact quantCmds_nil t d

theorem ensureOrders_quant (st : BotState) (now : ℚ) (env : List (Option Nat))
    (t : ℚ) (d : ℕ) (ht : st.price_tick = t) (hd : st.decimals = d) :
    quantCmds t d (ensureOrders st now env).2.1 := by
  simp only [ensureOrders]
  split
  · exact quantCmds_nil t d
  · split
    · exact quantCmds_nil t d
    · refine quantCmds_append _ _ _ _
        (quantCmds_append _ _ _ _ (ensureBuyLeg_quant _ _ _ _ _ _ _ ht hd) ?_) ?_
      · exact ensureSellLeg_quant _ _ _ _ _ _ _
          ((ensureBuyLeg_keeps _ _ _ _ _).1.trans ht)
          ((ensureBuyLeg_keeps _ _ _ _ _).2.1.trans hd)
      · exact placeAdditional_quant _ _ _ _ _ _
          ((ensureSellLeg_keeps _ _ _ _ _).1.trans
            ((ensureBuyLeg_keeps _ _ _ _ _).1.trans ht))
          ((ensureSellLeg_keeps _ _ _ _ _).2.1.trans
            ((ensureBuyLeg_keeps _ _ _ _ _).2.1.trans hd))

theorem placeStartup_quant (st : BotState) (mid : Option ℚ) (now : ℚ)
    (env : List (Option Nat)) (t : ℚ) (d : ℕ)
    (ht : st.price_tick = t) (hd : st.decimals = d) :
    quantCmds t d (placeStartupOrder st mid now env).2 := by
  cases mid with
  | none => exact quantCmds_nil t d
  | some m =>
      exact placeOrder_quant env Side.buy (roundPrice st (m * (1 - 1/10000)))
        (pyRound (st.usd_order_size / roundPrice st (m * (1 - 1/10000))) st.decimals)
        t d (roundPrice_tickMultiple st _ t ht) (pyRound_sizeQuantized _ _ _ hd)

theorem checkFills_quant (st : BotState) (snap : Option (List (Nat × ℚ)))
    (env : List (Option Nat)) (now : ℚ) (t : ℚ) (d : ℕ)
    (ht : st.price_tick = t) (hd : st.decimals = d) :
    quantCmds t d (checkFills st snap env now).2 := by
  simp only [checkFills]
  split
  · exact quantCmds_nil t d
  · split
    · exact quantCmds_nil t d
    · exact checkFillsLoop_quant _ now st.open_orders st env t d ht hd

/-- C9 (amended): round_price sends any raw price to the nearest multiple
of price_tick (ties to even, within half a tick), and every place issued
through _place_order — the startup seed, both ensure legs, the extra sell
ladder and the reconciler's replacements — carries a tick-multiple price
and a size of at most size_decimals fractional digits; that size is
Python's round(usd_order_size / px, size_decimals), a half-even rounding
rather than the truncation the claim describes, and the crash flatten
bypasses this path. -/
theorem quoting_quantization (st : BotState) (mid : Option ℚ)
    (now nowR : ℚ) (envS envE envR : List (Option Nat))
    (snap : Option (List (Nat × ℚ))) :
    (0 < st.price_tick → ∀ raw,
      |roundPrice st raw - raw| ≤ st.price_tick / 2) ∧
    quantCmds st.price_tick st.decimals (placeStartupOrder st mid now envS).2 ∧
    quantCmds st.price_tick st.decimals (ensureOrders st now envE).2.1 ∧
    quantCmds st.price_tick st.decimals (checkFills st snap envR nowR).2 :=
  ⟨fun ht raw => roundPrice_near st ht raw,
    placeStartup_quant st mid now envS _ _ rfl rfl,
    ensureOrders_quant st now envE _ _ rfl rfl,
    checkFills_quant st snap envR nowR _ _ rfl rfl⟩

/-- C9 counterexample: the ensure step at mid 6 places size
round(100/6, 5) = 16.66667, strictly above the truncation 16.66666 the
claim defines round_size to be; and the crash flatten emits a sell priced
at the latest mid 99.5, which is not a multiple of the tick 1. -/
theorem quantization_deviations :
    (Cmd.place Side.buy 6 (1666667/100000) "Gtc" false
        ∈ (ensureOrders evenSt 1000 [some 3, some 4]).2.1 ∧
      specTruncSize (evenSt.usd_order_size / 6) evenSt.decimals = 1666666/100000 ∧
      (1666667 : ℚ)/100000 ≠ 1666666/100000) ∧
    (Cmd.place Side.sell (199/2) (1/1000) "Ioc" true ∈ (checkCrash flatSt 7 true).2 ∧
      ¬ tickMultiple flatSt.price_tick (199/2)) := by
  refine ⟨⟨?_, ?_, by norm_num⟩, ?_, ?_⟩
  · norm_num [ensureOrders, ensureBuyLeg, ensureSellLeg, midPrice, truthyQ,
      getSpreads, roundPrice, pyRound, rndHalfEven, placeOrder, truthyOid,
      memKey, insertA, mkOrder, placeAdditionalSellOrders, evenSt, defSt]
  · norm_num [specTruncSize, intTrunc, evenSt, defSt]
  · norm_num [checkCrash, cancelAllOpenOrders, maxMid, latestMid,
      List.getLast?, flattenPx, flatSt, defSt]
  · rintro ⟨k, hk⟩
    rw [show flatSt.price_tick = 1 from rfl, mul_one] at hk
    have hk4 : (2 * k : ℤ) = 199 := by
      have hk3 : (2 * k : ℚ) = 199 := by rw [← hk]; norm_num
      exact_mod_cast hk3
    omega

/-- Witness for C9 on spec scenario 1: the ensure buy at 99961 for 0.001
is tick-aligned and 5-decimal quantized. -/
theorem quoting_quantization_witness :
    tickMultiple defSt.price_tick 99961 ∧ sizeQuantized defSt.decimals (1/1000) :=
  (quoting_quantization defSt (some 100001) 1000 0 [some 3] [some 3, some 4]
      [] none).2.2.1
    (Cmd.place Side.buy 99961 (1/1000) "Gtc" false)
    (by norm_num [ensureOrders, ensureBuyLeg, ensureSellLeg, midPrice, truthyQ,
      getSpreads, roundPrice, pyRound, rndHalfEven, placeOrder, truthyOid,
      memKey, insertA, mkOrder, placeAdditionalSellOrders, defSt])
    Side.buy 99961 (1/1000) "Gtc" false rfl

end HLBot
